import Mathlib

/-!
# Verification of the ollama proxy (`src/main.py`)

A shallow embedding of the single-file FastAPI reverse proxy:
configuration (`Conf`), the request/response pydantic models
(`APIRequest`, `APIResponse`), token validation (`is_token_valid`),
the per-line transform (`_process_line` / `_to_string`), the streaming
relay (`re_stream`), and the endpoint handler (`generate`).

JSON values produced by `json.loads` and consumed by `json` / pydantic
serialization are modelled by the inductive type `Json`; serialization
follows the compact separators used by pydantic's `model_dump_json`
(no spaces, `"key":value` pairs joined by commas).

The backend's streamed response is modelled as a finite list of lines,
each line being the result of parsing it as JSON: `none` stands for a
line that is not valid JSON, `some j` for a line parsing to the value
`j`.  Python exceptions surface as `Option.none` results.  The
`async with client.stream(...)` block of `re_stream` is modelled by an
event trace in which the context manager's guaranteed close-on-exit is
reflected by a `close` event emitted on each exit branch of the
generator loop (normal end of lines, a processing error, and a caller
disconnect that stops consuming the generator).
-/

namespace OllamaProxy

/-- JSON values, as returned by Python's `json.loads`. -/
inductive Json where
  | null : Json
  | bool : Bool → Json
  | num : Int → Json
  | str : String → Json
  | arr : List Json → Json
  | obj : List (String × Json) → Json
  deriving Repr

/-- Key lookup in a JSON value: `j[key]` succeeds only when `j` is an
object containing the key (otherwise Python raises `TypeError` /
`KeyError`, modelled as `none`). -/
def Json.lookup (j : Json) (key : String) : Option Json :=
  match j with
  | .obj fields => fields.lookup key
  | _ => none

/-- Hex digit for string escaping. -/
def hexDigit (n : Nat) : Char :=
  if n < 10 then Char.ofNat (48 + n) else Char.ofNat (87 + n)

/-- Escape one character for inclusion in a JSON string literal. -/
def escapeChar (c : Char) : String :=
  if c = '"' then "\\\""
  else if c = '\\' then "\\\\"
  else if c = '\n' then "\\n"
  else if c = '\r' then "\\r"
  else if c = '\t' then "\\t"
  else if c.toNat < 32 then
    "\\u00" ++ String.mk [hexDigit (c.toNat / 16), hexDigit (c.toNat % 16)]
  else String.mk [c]

/-- Escape a string for inclusion in a JSON document. -/
def escapeString (s : String) : String :=
  String.join (s.toList.map escapeChar)

mutual

/-- Compact JSON serialization (no spaces), as emitted by pydantic's
`model_dump_json` and by `json.dumps` with compact separators. -/
def Json.serialize : Json → String
  | .null => "null"
  | .bool true => "true"
  | .bool false => "false"
  | .num n => toString n
  | .str s => "\"" ++ escapeString s ++ "\""
  | .arr xs => "[" ++ Json.serializeArrItems xs ++ "]"
  | .obj fs => "\x7b" ++ Json.serializeObjItems fs ++ "\x7d"

/-- Comma-joined serialization of array elements. -/
def Json.serializeArrItems : List Json → String
  | [] => ""
  | [x] => Json.serialize x
  | x :: y :: xs => Json.serialize x ++ "," ++ Json.serializeArrItems (y :: xs)

/-- Comma-joined serialization of object members. -/
def Json.serializeObjItems : List (String × Json) → String
  | [] => ""
  | [(k, v)] => "\"" ++ escapeString k ++ "\":" ++ Json.serialize v
  | (k, v) :: y :: xs =>
      "\"" ++ escapeString k ++ "\":" ++ Json.serialize v ++ "," ++
        Json.serializeObjItems (y :: xs)

end

/-- App Config (`class Conf`).  The three environment-loaded strings are
the parameters; every other attribute is the fixed value from the
source. -/
structure Conf where
  token : String
  external : String
  localAddress : String
  deriving Repr, DecidableEq

/-- Source: `model: str = 'llama3.1:70b'`. -/
def Conf.model : String := "llama3.1:70b"

/-- Source: `endpoint: str = ''.join(('http://', local, '/api/generate'))`. -/
def Conf.endpoint (c : Conf) : String :=
  "http://" ++ c.localAddress ++ "/api/generate"

/-- Source: `code: int = 401`. -/
def Conf.code : Nat := 401

/-- Source: `detail: str = 'token is not valid'`. -/
def Conf.detail : String := "token is not valid"

/-- Source: `media: str = 'application/json'`. -/
def Conf.media : String := "application/json"

/-- Source: `timeout: int = 120`. -/
def Conf.timeout : Nat := 120

/-- API Response model (`class APIResponse(BaseModel)`). -/
structure APIResponse where
  token : String
  done : Bool := false
  deriving Repr, DecidableEq

/-- Serialization `model_dump_json()` of an `APIResponse`: the two declared fields in
declaration order, compactly serialized. -/
def APIResponse.model_dump_json (r : APIResponse) : String :=
  Json.serialize (Json.obj [("token", Json.str r.token), ("done", Json.bool r.done)])

/-- API Request model (`class APIRequest(BaseModel)`). -/
structure APIRequest where
  question : String
  token : String
  deriving Repr, DecidableEq

/-- Pydantic validation of an inbound JSON body against `APIRequest`:
both fields are required, both must be strings, there are no
defaults.  Any other body fails validation (`none`). -/
def parseAPIRequest (body : Json) : Option APIRequest :=
  match body.lookup "question", body.lookup "token" with
  | some (Json.str q), some (Json.str t) => some ⟨q, t⟩
  | _, _ => none

/-- Validator `is_token_valid`: `return self.token == Conf.token`. -/
def APIRequest.is_token_valid (r : APIRequest) (conf : Conf) : Bool :=
  r.token == conf.token

/-- Source: `_to_string` is `''.join((api_response.model_dump_json(), '\n'))`. -/
def APIRequest.to_string (api_response : APIResponse) : String :=
  api_response.model_dump_json ++ "\n"

/-- Transform `_process_line`: parse the line as JSON (`none` input = the line was
not valid JSON, so `json.loads` raises), read `response['response']` and
`response['done']`, validate them as the `token : str` and `done : bool`
fields of an `APIResponse`, and serialize.  `none` = a raised
exception. -/
def APIRequest.process_line (line : Option Json) : Option String :=
  match line with
  | none => none
  | some response =>
    match response.lookup "response", response.lookup "done" with
    | some (Json.str frag), some (Json.bool flag) =>
        some (APIRequest.to_string ⟨frag, flag⟩)
    | _, _ => none

/-- One outbound HTTP call issued through the shared `httpx` client. -/
structure BackendCall where
  method : String
  url : String
  body : Json
  timeout : Nat
  deriving Repr

/-- The single call `re_stream` issues:
`client.stream('post', Conf.endpoint, json={'model': Conf.model,
'prompt': self.question}, timeout=Conf.timeout)`. -/
def APIRequest.backendCall (r : APIRequest) (conf : Conf) : BackendCall :=
  { method := "post"
    url := conf.endpoint
    body := Json.obj [("model", Json.str Conf.model), ("prompt", Json.str r.question)]
    timeout := Conf.timeout }

/-- Observable events of one run of the relay generator. -/
inductive Event where
  | openCall : BackendCall → Event
  | yield : String → Event
  | close : Event
  deriving Repr

/-- The `async for` loop inside the `async with` block of `re_stream`.
`lines` is the backend's streamed output (parsed per line); `budget`
models the caller: `some k` means the caller consumes `k` more yields
and then disconnects (closing the generator), `none` means the caller
consumes everything.  Every exit branch — caller disconnect, end of the
backend lines, and an exception from `_process_line` — leaves the
`async with` block, which closes the backend stream: each branch ends
the trace with `Event.close`. -/
def relayLoop (lines : List (Option Json)) (budget : Option Nat) : List Event :=
  match budget with
  | some 0 => [Event.close]
  | _ =>
    match lines with
    | [] => [Event.close]
    | l :: ls =>
      match APIRequest.process_line l with
      | none => [Event.close]
      | some s => Event.yield s :: relayLoop ls (budget.map Nat.pred)

/-- Relay `re_stream`: open the backend stream (issuing the one backend call)
and run the relay loop. -/
def APIRequest.re_stream (r : APIRequest) (conf : Conf)
    (lines : List (Option Json)) (budget : Option Nat) : List Event :=
  Event.openCall (r.backendCall conf) :: relayLoop lines budget

/-- The strings actually delivered to the caller by a trace. -/
def yieldsOf (trace : List Event) : List String :=
  trace.filterMap fun e =>
    match e with
    | Event.yield s => some s
    | _ => none

/-- The backend calls issued by a trace. -/
def callsOf (trace : List Event) : List BackendCall :=
  trace.filterMap fun e =>
    match e with
    | Event.openCall c => some c
    | _ => none

/-- Result of the `generate` endpoint handler: either the raised
`HTTPException(Conf.code, detail=Conf.detail)` — rendered by FastAPI as
a JSON body `\x7b"detail": <detail>\x7d` — or a `StreamingResponse`
over `re_stream` with the configured media type. -/
inductive GenResult where
  | rejected : Nat → Json → GenResult
  | streaming : String → List Event → GenResult
  deriving Repr

/-- Handler `generate`: run the validator; on success stream `re_stream`, on
failure raise the fixed 401. -/
def generate (conf : Conf) (request : APIRequest)
    (lines : List (Option Json)) (budget : Option Nat) : GenResult :=
  if request.is_token_valid conf then
    GenResult.streaming Conf.media (request.re_stream conf lines budget)
  else
    GenResult.rejected Conf.code (Json.obj [("detail", Json.str Conf.detail)])

/-- Backend calls issued by an endpoint outcome. -/
def GenResult.calls : GenResult → List BackendCall
  | .rejected _ _ => []
  | .streaming _ trace => callsOf trace

/-- The full endpoint: FastAPI first validates the body against
`APIRequest`; a body that fails validation is rejected before the
handler (and hence the validator and the relay) ever runs. -/
def handleRequest (conf : Conf) (body : Json)
    (lines : List (Option Json)) (budget : Option Nat) : Option GenResult :=
  (parseAPIRequest body).map fun request => generate conf request lines budget

/-- Backend calls issued by the full endpoint (`none` = the body failed
validation, so the handler never ran and no call was made). -/
def outcomeCalls : Option GenResult → List BackendCall
  | none => []
  | some g => g.calls

/-- Whether an event is the closing of the backend stream. -/
def Event.isClose : Event → Bool
  | .close => true
  | _ => false

/-- The fragment/flag fields `_process_line` reads from a backend line:
`some (frag, flag)` when the line is a JSON object carrying a string
under `response` and a boolean under `done`, `none` otherwise. -/
def lineFields (line : Option Json) : Option (String × Bool) :=
  match line with
  | none => none
  | some j =>
    match j.lookup "response", j.lookup "done" with
    | some (Json.str frag), some (Json.bool flag) => some (frag, flag)
    | _, _ => none

/-! ## Shared lemmas -/

/-- The transform `_process_line` succeeds exactly on lines carrying the two expected
fields, and its output is determined by those fields alone. -/
lemma process_line_eq_lineFields (line : Option Json) :
    APIRequest.process_line line =
      (lineFields line).map fun p => APIRequest.to_string ⟨p.1, p.2⟩ := by
  rcases line with _ | j
  · rfl
  · simp only [APIRequest.process_line, lineFields]
    rcases j.lookup "response" with _ | v₁ <;> rcases h₂ : j.lookup "done" with _ | v₂ <;>
      try rfl
    · cases v₁ <;> rfl
    · cases v₁ <;> cases v₂ <;> rfl

/-- The relay loop never issues a backend call of its own. -/
lemma callsOf_relayLoop (lines : List (Option Json)) (budget : Option Nat) :
    callsOf (relayLoop lines budget) = [] := by
  induction lines generalizing budget with
  | nil =>
    rcases budget with _ | (_ | n) <;> rfl
  | cons l ls ih =>
    rcases budget with _ | (_ | n)
    · rw [relayLoop]
      · rcases APIRequest.process_line l with _ | s
        · rfl
        · simpa [callsOf] using ih none
      · simp
    · rfl
    · rw [relayLoop]
      · rcases APIRequest.process_line l with _ | s
        · rfl
        · simpa [callsOf] using ih (some n)
      · simp

/-- Unfolding: a line that processes successfully is yielded and the
loop continues (for any caller that has not yet disconnected). -/
lemma relayLoop_cons_of_some (l : Option Json) (ls : List (Option Json))
    (budget : Option Nat) (s : String)
    (hb : budget ≠ some 0) (hl : APIRequest.process_line l = some s) :
    relayLoop (l :: ls) budget =
      Event.yield s :: relayLoop ls (budget.map Nat.pred) := by
  rcases budget with _ | (_ | n)
  · rw [relayLoop]
    · simp [hl]
    · simp
  · exact absurd rfl hb
  · rw [relayLoop]
    · simp [hl]
    · simp

/-- Unfolding: a line whose processing raises ends the loop, closing the
backend stream. -/
lemma relayLoop_cons_of_fail (l : Option Json) (ls : List (Option Json))
    (budget : Option Nat)
    (hb : budget ≠ some 0) (hl : APIRequest.process_line l = none) :
    relayLoop (l :: ls) budget = [Event.close] := by
  rcases budget with _ | (_ | n)
  · rw [relayLoop]
    · simp [hl]
    · simp
  · exact absurd rfl hb
  · rw [relayLoop]
    · simp [hl]
    · simp

/-- A line that is not valid JSON, or lacks the `response` field or the
`done` field, makes `_process_line` raise. -/
lemma process_line_eq_none_of_malformed (bad : Option Json)
    (hbad : bad = none ∨ ∃ j, bad = some j ∧
      (j.lookup "response" = none ∨ j.lookup "done" = none)) :
    APIRequest.process_line bad = none := by
  rcases hbad with rfl | ⟨j, rfl, hj⟩
  · rfl
  · rcases hj with h | h
    · rcases h₂ : j.lookup "done" with _ | v₂
      · simp [APIRequest.process_line, h, h₂]
      · cases v₂ <;> simp [APIRequest.process_line, h, h₂]
    · rcases h₁ : j.lookup "response" with _ | v₁
      · simp [APIRequest.process_line, h, h₁]
      · cases v₁ <;> simp [APIRequest.process_line, h, h₁]

/-! ## Claims -/

/-- C4: the validator `is_token_valid` returns `true` if and only if the
request's `token` field is byte-for-byte equal to the configured secret;
it is a total boolean-valued function (no side effects, no raised
failure — an invalid token is an ordinary `false`). -/
theorem is_token_valid_iff (r : APIRequest) (conf : Conf) :
    r.is_token_valid conf = true ↔ r.token = conf.token := by
  simp [APIRequest.is_token_valid]

/-- C1: when the request's token differs from the configured secret,
`generate` returns the fixed 401 rejection with body
`\x7b"detail": "token is not valid"\x7d` and issues no backend call. -/
theorem generate_rejects_invalid_token (conf : Conf) (r : APIRequest)
    (lines : List (Option Json)) (budget : Option Nat)
    (h : r.token ≠ conf.token) :
    generate conf r lines budget =
      GenResult.rejected 401 (Json.obj [("detail", Json.str "token is not valid")]) ∧
    (generate conf r lines budget).calls = [] := by
  have hv : r.is_token_valid conf = false := by
    simp [APIRequest.is_token_valid, h]
  simp [generate, hv, Conf.code, Conf.detail, GenResult.calls]

/-- C1 witness: a concrete request with a wrong token is rejected with
the fixed status and body, and no backend call is made. -/
theorem generate_rejects_invalid_token_witness :
    generate ⟨"secret123", "0.0.0.0:11000", "localhost:11434"⟩
        ⟨"hi", "wrongtoken"⟩ [] none =
      GenResult.rejected 401 (Json.obj [("detail", Json.str "token is not valid")]) ∧
    (generate ⟨"secret123", "0.0.0.0:11000", "localhost:11434"⟩
        ⟨"hi", "wrongtoken"⟩ [] none).calls = [] :=
  generate_rejects_invalid_token _ _ _ _ (by decide)

/-- C2: when the request's token equals the configured secret, exactly
one backend call is issued: a `post` to
`http://<local-address>/api/generate` with JSON body
`\x7b"model": <configured model>, "prompt": <question>\x7d` and a
120-second timeout. -/
theorem generate_issues_one_backend_call (conf : Conf) (r : APIRequest)
    (lines : List (Option Json)) (budget : Option Nat)
    (h : r.token = conf.token) :
    (generate conf r lines budget).calls =
      [⟨"post", "http://" ++ conf.localAddress ++ "/api/generate",
        Json.obj [("model", Json.str "llama3.1:70b"),
          ("prompt", Json.str r.question)], 120⟩] := by
  have hv : r.is_token_valid conf = true := by
    simp [APIRequest.is_token_valid, h]
  have hc : ∀ (c : BackendCall) (t : List Event),
      callsOf (Event.openCall c :: t) = c :: callsOf t := fun c t => rfl
  simp [generate, hv, GenResult.calls, APIRequest.re_stream, hc,
    callsOf_relayLoop, APIRequest.backendCall, Conf.endpoint, Conf.model,
    Conf.timeout]

/-- C2 witness: a concrete request with the right token issues exactly
the one expected backend call. -/
theorem generate_issues_one_backend_call_witness :
    (generate ⟨"secret123", "0.0.0.0:11000", "localhost:11434"⟩
        ⟨"hi", "secret123"⟩ [] none).calls =
      [⟨"post", "http://" ++ "localhost:11434" ++ "/api/generate",
        Json.obj [("model", Json.str "llama3.1:70b"),
          ("prompt", Json.str "hi")], 120⟩] :=
  generate_issues_one_backend_call _ _ _ _ rfl

/-- C3: when the backend emits lines L1, ..., Ln in that order, each a
JSON object whose fragment/flag fields are given by `fields`, the
caller receives exactly the transformed lines in the same order, each
the serialization of `\x7btoken: <fragment>, done: <flag>\x7d` plus a
single trailing newline. -/
theorem relay_preserves_order (lines : List (Option Json))
    (fields : List (String × Bool))
    (h : lines.map lineFields = fields.map some) :
    yieldsOf (relayLoop lines none) =
      fields.map fun p => APIRequest.to_string ⟨p.1, p.2⟩ := by
  induction lines generalizing fields with
  | nil =>
    have : fields = [] := by
      rcases fields with _ | ⟨p, ps⟩
      · rfl
      · simp at h
    subst this
    rfl
  | cons l ls ih =>
    rcases fields with _ | ⟨p, ps⟩
    · simp at h
    · simp only [List.map_cons, List.cons.injEq] at h
      have hl : APIRequest.process_line l =
          some (APIRequest.to_string ⟨p.1, p.2⟩) := by
        rw [process_line_eq_lineFields, h.1]
        rfl
      rw [relayLoop_cons_of_some l ls none _ (by simp) hl]
      simpa [yieldsOf] using ih ps h.2

/-- C3 witness: two concrete backend lines are forwarded in order as
their transforms. -/
theorem relay_preserves_order_witness :
    yieldsOf (relayLoop
      [some (Json.obj [("response", Json.str "He"), ("done", Json.bool false)]),
       some (Json.obj [("response", Json.str "llo"), ("done", Json.bool true),
         ("total_duration", Json.num 5)])] none) =
      ([("He", false), ("llo", true)].map
        fun p => APIRequest.to_string ⟨p.1, p.2⟩) :=
  relay_preserves_order _ [("He", false), ("llo", true)] rfl

/-- C5: the relay never stops early on a completion flag — for every
backend line sequence whose lines all process successfully (whatever
their `done` flags are), the number of forwarded lines equals the
number of backend lines; the sequence ends only at the transport's
EOF. -/
theorem relay_forwards_all_lines (lines : List (Option Json))
    (h : ∀ l ∈ lines, (APIRequest.process_line l).isSome) :
    (yieldsOf (relayLoop lines none)).length = lines.length := by
  induction lines with
  | nil => rfl
  | cons l ls ih =>
    rcases hs : APIRequest.process_line l with _ | s
    · have := h l (by simp)
      rw [hs] at this
      simp at this
    · rw [relayLoop_cons_of_some l ls none s (by simp) hs]
      have : (yieldsOf (relayLoop ls none)).length = ls.length :=
        ih fun x hx => h x (by simp [hx])
      simpa [yieldsOf] using this

/-- C5 witness: a `done: true` on the first of two lines does not stop
the relay — both lines are forwarded. -/
theorem relay_forwards_all_lines_witness :
    (yieldsOf (relayLoop
      [some (Json.obj [("response", Json.str "a"), ("done", Json.bool true)]),
       some (Json.obj [("response", Json.str "b"), ("done", Json.bool false)])]
      none)).length = 2 :=
  relay_forwards_all_lines _ (by decide)

/-- C6: a backend line that is not valid JSON or lacks the `response`
or `done` field raises, aborting the stream at that point: the
successfully processed earlier lines are exactly what was forwarded,
and no later backend line is forwarded. -/
theorem relay_aborts_on_malformed (pre post : List (Option Json))
    (bad : Option Json)
    (hpre : ∀ l ∈ pre, (APIRequest.process_line l).isSome)
    (hbad : bad = none ∨ ∃ j, bad = some j ∧
      (j.lookup "response" = none ∨ j.lookup "done" = none)) :
    yieldsOf (relayLoop (pre ++ bad :: post) none) =
      pre.filterMap APIRequest.process_line := by
  induction pre with
  | nil =>
    rw [List.nil_append,
      relayLoop_cons_of_fail bad post none (by simp)
        (process_line_eq_none_of_malformed bad hbad)]
    rfl
  | cons l ls ih =>
    rcases hs : APIRequest.process_line l with _ | s
    · have := hpre l (by simp)
      rw [hs] at this
      simp at this
    · rw [List.cons_append,
        relayLoop_cons_of_some l (ls ++ bad :: post) none s (by simp) hs]
      have := ih fun x hx => hpre x (by simp [hx])
      simp [yieldsOf, List.filterMap_cons, hs] at this ⊢
      exact this

/-- C6 witness: a middle line missing the `done` field aborts the
stream — only the first line's transform is delivered, the line after
the malformed one is never forwarded. -/
theorem relay_aborts_on_malformed_witness :
    yieldsOf (relayLoop
      [some (Json.obj [("response", Json.str "a"), ("done", Json.bool false)]),
       some (Json.obj [("response", Json.str "b")]),
       some (Json.obj [("response", Json.str "c"), ("done", Json.bool true)])]
      none) =
      [some (Json.obj [("response", Json.str "a"), ("done", Json.bool false)])].filterMap
        APIRequest.process_line :=
  relay_aborts_on_malformed
    [some (Json.obj [("response", Json.str "a"), ("done", Json.bool false)])]
    [some (Json.obj [("response", Json.str "c"), ("done", Json.bool true)])]
    (some (Json.obj [("response", Json.str "b")]))
    (by decide)
    (Or.inr ⟨Json.obj [("response", Json.str "b")], rfl, Or.inr rfl⟩)

end OllamaProxy

namespace OllamaProxy

/-- Yields of a trace starting with a yield. -/
lemma yieldsOf_yield_cons (s : String) (t : List Event) :
    yieldsOf (Event.yield s :: t) = s :: yieldsOf t := rfl

/-- On every exit branch, the relay loop's trace ends with — and
contains exactly one — close of the backend stream. -/
lemma relayLoop_ends_close (lines : List (Option Json)) (budget : Option Nat) :
    (relayLoop lines budget).getLast? = some Event.close ∧
    (relayLoop lines budget).countP (fun e => e.isClose) = 1 := by
  induction lines generalizing budget with
  | nil =>
    rcases budget with _ | (_ | n) <;> exact ⟨rfl, rfl⟩
  | cons l ls ih =>
    rcases budget with _ | (_ | n)
    · rcases hs : APIRequest.process_line l with _ | s
      · rw [relayLoop_cons_of_fail l ls none (by simp) hs]
        exact ⟨rfl, rfl⟩
      · rw [relayLoop_cons_of_some l ls none s (by simp) hs]
        simp only [Option.map_none']
        obtain ⟨h1, h2⟩ := ih none
        refine ⟨?_, ?_⟩
        · rcases ht : relayLoop ls none with _ | ⟨e, es⟩
          · rw [ht] at h1
            simp at h1
          · rw [ht] at h1
            simpa [List.getLast?_cons_cons] using h1
        · simpa [List.countP_cons, Event.isClose] using h2
    · exact ⟨rfl, rfl⟩
    · rcases hs : APIRequest.process_line l with _ | s
      · rw [relayLoop_cons_of_fail l ls (some (n + 1)) (by simp) hs]
        exact ⟨rfl, rfl⟩
      · rw [relayLoop_cons_of_some l ls (some (n + 1)) s (by simp) hs]
        simp only [Option.map_some', Nat.pred_succ]
        obtain ⟨h1, h2⟩ := ih (some n)
        refine ⟨?_, ?_⟩
        · rcases ht : relayLoop ls (some n) with _ | ⟨e, es⟩
          · rw [ht] at h1
            simp at h1
          · rw [ht] at h1
            simpa [List.getLast?_cons_cons] using h1
        · simpa [List.countP_cons, Event.isClose] using h2

/-- C7: on every exit path of `re_stream` — normal completion of the
backend stream, an error raised while processing a line, or a caller
disconnect after any number of consumed lines — the trace ends with the
close of the backend stream, and the stream is closed exactly once. -/
theorem re_stream_closes_on_every_exit (conf : Conf) (r : APIRequest)
    (lines : List (Option Json)) (budget : Option Nat) :
    (r.re_stream conf lines budget).getLast? = some Event.close ∧
    (r.re_stream conf lines budget).countP (fun e => e.isClose) = 1 := by
  obtain ⟨h1, h2⟩ := relayLoop_ends_close lines budget
  refine ⟨?_, ?_⟩
  · rw [APIRequest.re_stream]
    rcases ht : relayLoop lines budget with _ | ⟨e, es⟩
    · rw [ht] at h1
      simp at h1
    · rw [ht] at h1
      simpa [List.getLast?_cons_cons] using h1
  · rw [APIRequest.re_stream]
    simpa [List.countP_cons, Event.isClose] using h2

/-- C8: the per-line transform is a pure function of exactly the line's
fragment and completion-flag fields — two lines with the same two
fields produce byte-identical output, namely the serialization of
`\x7btoken, done\x7d` plus a newline. -/
theorem process_line_pure_in_fields (j₁ j₂ : Json) (frag : String)
    (flag : Bool)
    (h₁ : j₁.lookup "response" = some (Json.str frag))
    (h₂ : j₁.lookup "done" = some (Json.bool flag))
    (h₃ : j₂.lookup "response" = some (Json.str frag))
    (h₄ : j₂.lookup "done" = some (Json.bool flag)) :
    APIRequest.process_line (some j₁) = APIRequest.process_line (some j₂) ∧
    APIRequest.process_line (some j₁) =
      some (APIRequest.to_string ⟨frag, flag⟩) := by
  have e₁ : APIRequest.process_line (some j₁) =
      some (APIRequest.to_string ⟨frag, flag⟩) := by
    simp [APIRequest.process_line, h₁, h₂]
  have e₂ : APIRequest.process_line (some j₂) =
      some (APIRequest.to_string ⟨frag, flag⟩) := by
    simp [APIRequest.process_line, h₃, h₄]
  exact ⟨e₁.trans e₂.symm, e₁⟩

/-- C8 witness: two concrete lines differing in key order and extra
fields but equal in fragment and flag produce the same bytes. -/
theorem process_line_pure_in_fields_witness :
    APIRequest.process_line
        (some (Json.obj [("response", Json.str "H"), ("done", Json.bool false)])) =
      APIRequest.process_line
        (some (Json.obj [("done", Json.bool false), ("response", Json.str "H"),
          ("context", Json.arr [Json.num 1, Json.num 2])])) ∧
    APIRequest.process_line
        (some (Json.obj [("response", Json.str "H"), ("done", Json.bool false)])) =
      some (APIRequest.to_string ⟨"H", false⟩) :=
  process_line_pure_in_fields _ _ "H" false rfl rfl rfl rfl

/-- C9: a body in which the `question` field or the `token` field is
missing or not a string fails pydantic validation — the endpoint
rejects it before the validator runs and issues no backend call. -/
theorem invalid_body_rejected_before_validator (conf : Conf) (body : Json)
    (lines : List (Option Json)) (budget : Option Nat)
    (h : (∀ s, body.lookup "question" ≠ some (Json.str s)) ∨
         (∀ s, body.lookup "token" ≠ some (Json.str s))) :
    handleRequest conf body lines budget = none ∧
    outcomeCalls (handleRequest conf body lines budget) = [] := by
  have hp : parseAPIRequest body = none := by
    rcases h with h | h
    · rcases hq : body.lookup "question" with _ | vq
      · simp [parseAPIRequest, hq]
      · cases vq with
        | str s => exact absurd hq (h s)
        | null => simp [parseAPIRequest, hq]
        | bool b => simp [parseAPIRequest, hq]
        | num n => simp [parseAPIRequest, hq]
        | arr xs => simp [parseAPIRequest, hq]
        | obj fs => simp [parseAPIRequest, hq]
    · rcases hq : body.lookup "question" with _ | vq
      · simp [parseAPIRequest, hq]
      · rcases ht : body.lookup "token" with _ | vt
        · cases vq <;> simp [parseAPIRequest, hq, ht]
        · cases vt with
          | str s => exact absurd ht (h s)
          | null => cases vq <;> simp [parseAPIRequest, hq, ht]
          | bool b => cases vq <;> simp [parseAPIRequest, hq, ht]
          | num n => cases vq <;> simp [parseAPIRequest, hq, ht]
          | arr xs => cases vq <;> simp [parseAPIRequest, hq, ht]
          | obj fs => cases vq <;> simp [parseAPIRequest, hq, ht]
  simp [handleRequest, hp, outcomeCalls]

/-- C9 witness: a body whose `token` field is a number fails validation
and never reaches the backend. -/
theorem invalid_body_rejected_before_validator_witness :
    handleRequest ⟨"secret123", "0.0.0.0:11000", "localhost:11434"⟩
        (Json.obj [("question", Json.str "hi"), ("token", Json.num 5)]) [] none =
      none ∧
    outcomeCalls (handleRequest ⟨"secret123", "0.0.0.0:11000", "localhost:11434"⟩
        (Json.obj [("question", Json.str "hi"), ("token", Json.num 5)]) [] none) = [] :=
  invalid_body_rejected_before_validator _ _ _ _
    (Or.inr fun _ hs => Json.noConfusion (Option.some.inj hs))

/-- Every string the relay loop yields is the transform of some
fragment/flag pair: the serialization of an object with exactly the
fields `token` and `done`, plus a newline. -/
lemma yieldsOf_relayLoop_shape :
    ∀ (lines : List (Option Json)) (budget : Option Nat) (s : String),
      s ∈ yieldsOf (relayLoop lines budget) →
      ∃ frag flag, s =
        Json.serialize (Json.obj [("token", Json.str frag),
          ("done", Json.bool flag)]) ++ "\n" := by
  intro lines
  induction lines with
  | nil =>
    intro budget s hs
    rcases budget with _ | (_ | n) <;> exact absurd hs (List.not_mem_nil s)
  | cons l ls ih =>
    intro budget s hs
    rcases hb : budget with _ | (_ | n)
    · subst hb
      rcases hp : APIRequest.process_line l with _ | t
      · rw [relayLoop_cons_of_fail l ls none (by simp) hp] at hs
        exact absurd hs (by simp [yieldsOf])
      · rw [relayLoop_cons_of_some l ls none t (by simp) hp,
          Option.map_none', yieldsOf_yield_cons, List.mem_cons] at hs
        rcases hs with rfl | hmem
        · rw [process_line_eq_lineFields] at hp
          rcases hf : lineFields l with _ | p
          · rw [hf] at hp
            simp at hp
          · rw [hf] at hp
            simp only [Option.map_some', Option.some.injEq] at hp
            exact ⟨p.1, p.2, hp ▸ rfl⟩
        · exact ih none s hmem
    · subst hb
      exact absurd hs (List.not_mem_nil s)
    · subst hb
      rcases hp : APIRequest.process_line l with _ | t
      · rw [relayLoop_cons_of_fail l ls (some (n + 1)) (by simp) hp] at hs
        exact absurd hs (by simp [yieldsOf])
      · rw [relayLoop_cons_of_some l ls (some (n + 1)) t (by simp) hp,
          Option.map_some', Nat.pred_succ, yieldsOf_yield_cons,
          List.mem_cons] at hs
        rcases hs with rfl | hmem
        · rw [process_line_eq_lineFields] at hp
          rcases hf : lineFields l with _ | p
          · rw [hf] at hp
            simp at hp
          · rw [hf] at hp
            simp only [Option.map_some', Option.some.injEq] at hp
            exact ⟨p.1, p.2, hp ▸ rfl⟩
        · exact ih (some n) s hmem

/-- C10: every line forwarded to the caller is a JSON object with
exactly the two fields `token` and `done` (in that order) and nothing
else — extra fields of a backend line are dropped by the transform. -/
theorem forwarded_lines_have_exact_fields (lines : List (Option Json))
    (budget : Option Nat) (s : String)
    (hs : s ∈ yieldsOf (relayLoop lines budget)) :
    ∃ frag flag, s =
      Json.serialize (Json.obj [("token", Json.str frag),
        ("done", Json.bool flag)]) ++ "\n" :=
  yieldsOf_relayLoop_shape lines budget s hs

/-- C10 witness: the concrete forwarded line for a backend line with an
extra `total_duration` field carries only `token` and `done`. -/
theorem forwarded_lines_have_exact_fields_witness :
    ∃ frag flag,
      "\x7b\"token\":\"Hi\",\"done\":true\x7d\n" =
        Json.serialize (Json.obj [("token", Json.str frag),
          ("done", Json.bool flag)]) ++ "\n" :=
  forwarded_lines_have_exact_fields
    [some (Json.obj [("response", Json.str "Hi"), ("done", Json.bool true),
      ("total_duration", Json.num 7)])] none
    "\x7b\"token\":\"Hi\",\"done\":true\x7d\n" (by decide)

end OllamaProxy
